import Mathlib

/-!
Shallow embedding of the eviction engine of the `next-image-cache-cleaner`
repository: the `DirectoryWorker` class (directory scanning, size
accumulation, TTL eviction, capacity eviction), the debounced change-driven
trigger of `Watcher`, and the configuration validation of `CacheCleaner`.

Modelling conventions:
* JavaScript numbers are modelled as `Int` (byte totals, limits, timestamps)
  or `Nat` (file sizes, counts); configuration fractions are rationals.
* A rejected promise is `Except.error ()`; `null` results are `Option`.
* The bounded-concurrency queue only controls scheduling, never results, so
  passes are modelled as folds over the listed entries.
-/

namespace NICC

/-- Fields of a successful `fs.stat` result that the worker reads:
`stats.isFile()`, `stats.size` and `stats.birthtimeMs`. -/
structure Stats where
  isFile : Bool
  size : Nat
  birthtimeMs : Int
deriving DecidableEq

/-- One entry yielded by `DirectoryWorker.#traverseDirectory` together with
the outcome of the `fs.stat` call issued for it by the scanning pass.
`Except.error ()` models a rejected stat, e.g. the file was deleted between
listing and stat. -/
structure ScanEntry where
  name : String
  parentPath : String
  fullPath : String
  statResult : Except Unit Stats

/-- In-memory record of one scanned file: the `FileItem` of `types.ts`,
flattened to the `Dirent` and `Stats` fields the worker actually reads. -/
structure FileItem where
  name : String
  parentPath : String
  fullPath : String
  size : Nat
  birthtimeMs : Int
deriving DecidableEq

/-- The mutable state of a `DirectoryWorker` instance: the `#files` list and
the `#totalSize` accumulator. -/
structure WorkerState where
  files : List FileItem
  totalSize : Int
deriving DecidableEq

/-- State set by the `DirectoryWorker` constructor: `#files = []` and
`#totalSize = 0`. -/
def initialWorkerState : WorkerState := ⟨[], 0⟩

/-- Numeric value of a decimal or hexadecimal digit character. -/
def hexDigitVal (c : Char) : Nat :=
  if c.isDigit then c.toNat - Char.toNat '0'
  else if 'a' ≤ c ∧ c ≤ 'f' then c.toNat - Char.toNat 'a' + 10
  else c.toNat - Char.toNat 'A' + 10

/-- Hexadecimal digit test used by the `0x` branch of `parseInt`. -/
def isHexDigitChar (c : Char) : Bool :=
  c.isDigit || (decide ('a' ≤ c) && decide (c ≤ 'f'))
    || (decide ('A' ≤ c) && decide (c ≤ 'F'))

/-- Value of a digit string read left to right in the given base. -/
def digitsVal (base : Nat) (ds : List Char) : Nat :=
  ds.foldl (fun acc c => acc * base + hexDigitVal c) 0

/-- Whitespace characters skipped by JavaScript `parseInt`. -/
def isJsSpace (c : Char) : Bool :=
  c == ' ' || c == '\t' || c == '\n' || c == '\r' || c == '\x0b' || c == '\x0c'

/-- Digit-reading core of JavaScript `parseInt` after sign handling: either a
`0x`/`0X` prefix followed by at least one hexadecimal digit, or a longest
(possibly improper) run of decimal digits; `none` models the `NaN` result. -/
def jsParseIntCore (cs : List Char) : Option Nat :=
  match cs with
  | '0' :: x :: rest =>
    if x == 'x' || x == 'X' then
      match rest.takeWhile isHexDigitChar with
      | [] => none
      | hs => some (digitsVal 16 hs)
    else some (digitsVal 10 (('0' :: x :: rest).takeWhile Char.isDigit))
  | _ =>
    match cs.takeWhile Char.isDigit with
    | [] => none
    | ds => some (digitsVal 10 ds)

/-- JavaScript `parseInt(s)` with no radix argument: skip leading whitespace,
read an optional sign, then parse digits; `none` models `NaN`. -/
def jsParseInt (s : String) : Option Int :=
  match s.toList.dropWhile isJsSpace with
  | '-' :: rest => (jsParseIntCore rest).map (fun n => -(n : Int))
  | '+' :: rest => (jsParseIntCore rest).map (fun n => (n : Int))
  | cs => (jsParseIntCore cs).map (fun n => (n : Int))

/-- JavaScript `String.prototype.split` with a single-character separator,
on the character list of the string: `""` splits to `[""]`, separators at the
ends produce empty segments. -/
def splitOnChar (sep : Char) : List Char → List (List Char)
  | [] => [[]]
  | c :: rest =>
    if c == sep then [] :: splitOnChar sep rest
    else
      match splitOnChar sep rest with
      | h :: t => (c :: h) :: t
      | [] => [[c]]

/-- `DirectoryWorker.#parseFile`: `parseInt(fileName.split('.')[1])`.
`none` covers both the `NaN` result and the missing second segment
(`split('.')[1]` is then `undefined` and `parseInt(undefined)` is `NaN`);
the `try`/`catch` around these calls can never catch, as neither throws. -/
def parseFile (fileName : String) : Option Int :=
  match (splitOnChar '.' fileName.toList)[1]? with
  | some seg => jsParseInt (String.mk seg)
  | none => none

/-- The deletion guard of `deleteOutdatedFiles`:
`expireAt && expireAt < Date.now()`.  Both a `null`/`NaN` parse (`none`) and
the parsed value `0` are falsy, so such files are skipped. -/
def isOutdated (now : Int) (f : FileItem) : Bool :=
  match parseFile f.name with
  | some e => decide (e ≠ 0) && decide (e < now)
  | none => false

/-- The `for (const file of this.#files)` loop of `deleteOutdatedFiles`:
the iteration runs over the snapshot taken at loop entry; every outdated file
gets its parent directory pushed onto the deletion schedule and is filtered
out of the internal list. -/
def ttlLoop (now : Int) :
    List FileItem → List FileItem → List String → List FileItem × List String
  | [], remaining, scheduled => (remaining, scheduled)
  | f :: rest, remaining, scheduled =>
    if isOutdated now f then
      ttlLoop now rest (remaining.filter (fun g => decide (g ≠ f)))
        (scheduled ++ [f.parentPath])
    else
      ttlLoop now rest remaining scheduled

/-- Value returned (inside `some`) by a TTL pass whose listing succeeded:
the reported count, the parent directories scheduled for `fs.rm` in schedule
order, and the surviving `#files` list. -/
structure TtlResult where
  deletedCount : Nat
  scheduled : List String
  files : List FileItem
deriving DecidableEq

/-- `DirectoryWorker.deleteOutdatedFiles`.  `listing` is the outcome of the
initial `updateAllFiles` call; a rejection there is caught and turned into
`null` (`none`).  `rmOk i` records whether the `i`-th scheduled `fs.rm`
promise fulfilled; `Promise.allSettled` awaits all of them, and the returned
count is the number of fulfilled results. -/
def deleteOutdatedFiles (listing : Except Unit (List FileItem)) (now : Int)
    (rmOk : Nat → Bool) : Option TtlResult :=
  match listing with
  | .error _ => none
  | .ok files =>
    match ttlLoop now files files [] with
    | (remaining, scheduled) =>
      some ⟨((List.range scheduled.length).filter rmOk).length, scheduled,
        remaining⟩

/-- Whether the `fs.stat` task of this entry rejected. -/
def statFailed (e : ScanEntry) : Bool :=
  match e.statResult with
  | .error _ => true
  | .ok _ => false

/-- Bytes contributed by one entry to `#totalSize`: its size when its stat
succeeded and reported a regular file, `0` otherwise. -/
def entryContribution (e : ScanEntry) : Int :=
  match e.statResult with
  | .ok s => if s.isFile then (s.size : Int) else 0
  | .error _ => 0

/-- The value accumulated into `#totalSize` by the size pass: each queued task
whose stat succeeded on a regular file adds its size (queued tasks run to
completion even when a sibling task rejected). -/
def okFileSizes (entries : List ScanEntry) : Int :=
  entries.foldl
    (fun acc e =>
      match e.statResult with
      | .ok s => if s.isFile then acc + (s.size : Int) else acc
      | .error _ => acc) 0

/-- The promise returned by `DirectoryWorker.getDirectorySize`.  The per-entry
stat tasks are joined with `Promise.all`, which rejects as soon as any task
rejects, so a single failed stat rejects the whole pass. -/
def getDirectorySize (entries : List ScanEntry) : Except Unit Int :=
  if entries.any statFailed then .error () else .ok (okFileSizes entries)

/-- State effect of `getDirectorySize`: `#totalSize` is reset and
re-accumulated, while `#files` is never touched by this method. -/
def getDirectorySizeState (st : WorkerState) (entries : List ScanEntry) :
    WorkerState × Except Unit Int :=
  ({ st with totalSize := okFileSizes entries }, getDirectorySize entries)

/-- The record pushed onto `#files` for one successfully stat-ed entry. -/
def mkFileItem (e : ScanEntry) (s : Stats) : FileItem :=
  ⟨e.name, e.parentPath, e.fullPath, s.size, s.birthtimeMs⟩

/-- The promise returned by `DirectoryWorker.updateAllFiles`: like the size
pass, it joins its stat tasks with `Promise.all`, so any stat failure rejects
the pass; on success `#files` holds one record per listed entry. -/
def updateAllFiles (entries : List ScanEntry) : Except Unit (List FileItem) :=
  if entries.any statFailed then .error ()
  else
    .ok (entries.filterMap
      (fun e =>
        match e.statResult with
        | .ok s => some (mkFileItem e s)
        | .error _ => none))

/-- Total byte size of a list of file records. -/
def sumSizes (files : List FileItem) : Int :=
  (files.map (fun f => (f.size : Int))).sum

/-- Creation-time order used by the comparator
`(a, b) => a.stats.birthtimeMs - b.stats.birthtimeMs`. -/
def birthLE (a b : FileItem) : Prop := a.birthtimeMs ≤ b.birthtimeMs

instance : DecidableRel birthLE := fun a b => Int.decLe a.birthtimeMs b.birthtimeMs

instance : IsTotal FileItem birthLE := ⟨fun a b => Int.le_total a.birthtimeMs b.birthtimeMs⟩

instance : IsTrans FileItem birthLE := ⟨fun _ _ _ h1 h2 => le_trans h1 h2⟩

/-- The `sort((a, b) => a.stats.birthtimeMs - b.stats.birthtimeMs)` call on a
copy of `#files`: a stable sort by creation time, oldest first
(`Array.prototype.sort` is specified stable; a stable insertion sort produces
the same list as any other stable sort under the same comparator). -/
def sortByBirthtime (files : List FileItem) : List FileItem :=
  files.insertionSort birthLE

/-- The `for (const file of sortedFiles)` loop of `deleteFilesOverLimit`:
schedule the file's parent-directory deletion, drop the file from `#files`,
accumulate its size, and break once the accumulated size reaches the excess. -/
def deleteLoop (excessSize : Int) :
    List FileItem → Int → List String → List FileItem →
      Int × List String × List FileItem
  | [], acc, scheduled, remaining => (acc, scheduled, remaining)
  | f :: rest, acc, scheduled, remaining =>
    if excessSize ≤ acc + (f.size : Int) then
      (acc + (f.size : Int), scheduled ++ [f.parentPath],
        remaining.filter (fun g => decide (g ≠ f)))
    else
      deleteLoop excessSize rest (acc + (f.size : Int))
        (scheduled ++ [f.parentPath]) (remaining.filter (fun g => decide (g ≠ f)))

/-- Number of files `deleteLoop` consumes before breaking: the whole list when
the accumulated size never reaches the excess. -/
def stopCount (excessSize : Int) : List FileItem → Int → Nat
  | [], _ => 0
  | f :: rest, acc =>
    if excessSize ≤ acc + (f.size : Int) then 1
    else 1 + stopCount excessSize rest (acc + (f.size : Int))

/-- Iterated `this.#files = this.#files.filter((f) => f !== file)` over a list
of processed files. -/
def removeAll (l : List FileItem) (ds : List FileItem) : List FileItem :=
  l.filter (fun g => decide (g ∉ ds))

/-- Value returned by `deleteFilesOverLimit` together with the state it leaves
behind: the accumulated freed byte total, the parent directories scheduled for
`fs.rm` in schedule order, and the new worker state. -/
structure DeleteResult where
  freed : Int
  scheduled : List String
  state : WorkerState
deriving DecidableEq

/-- `DirectoryWorker.deleteFilesOverLimit`.  The excess over the limit is
computed from the current `#totalSize`; when it is positive the files are
sorted oldest-first and deleted greedily until the accumulated size covers the
excess.  `#totalSize` itself is left unchanged by this method. -/
def deleteFilesOverLimit (st : WorkerState) (limit : Int) : DeleteResult :=
  if st.totalSize - limit ≤ 0 then ⟨0, [], st⟩
  else
    match deleteLoop (st.totalSize - limit) (sortByBirthtime st.files) 0 []
        st.files with
    | (acc, scheduled, remaining) => ⟨acc, scheduled, ⟨remaining, st.totalSize⟩⟩

/-- Effect of a fresh `getDirectorySize` scan in the situation where the
directory content coincides with the in-memory list: no file was added or
removed externally and each tracked file sits in its own cache-entry
directory, so the rescanned total is the sum over the surviving records. -/
def recomputeSize (st : WorkerState) : WorkerState :=
  ⟨st.files, sumSizes st.files⟩

/-- The debounce delay of `Watcher.#onAddFile`, in milliseconds. -/
def debounceDelay : Int := 500

/-- Discrete-event model of the debounce in `Watcher.#onAddFile` (the revision
with the `#cleanupTimer` field).  The first argument lists the creation-event
times in arrival order; the second is the armed timer's deadline, if one is
pending.  Each event clears any pending timer and arms a new one for 500ms
later; a pending timer fires only if no further event arrives before its
deadline.  The returned list holds the times at which the timer callback —
one capacity evaluation — actually runs. -/
def debounceFireTimes : List Int → Option Int → List Int
  | [], none => []
  | [], some d => [d]
  | t :: rest, none => debounceFireTimes rest (some (t + debounceDelay))
  | t :: rest, some d =>
    if d ≤ t then d :: debounceFireTimes rest (some (t + debounceDelay))
    else debounceFireTimes rest (some (t + debounceDelay))

/-- The debounced timer callback of `Watcher.#onAddFile`: recompute the
directory size (`#needToEraseFiles` runs `getDirectorySize`) and, when at or
over the limit, run the capacity eviction; returns the new state and the byte
total reported as released. -/
def capacityEvaluation (st : WorkerState) (limit : Int) : WorkerState × Int :=
  if limit ≤ (recomputeSize st).totalSize then
    ((deleteFilesOverLimit (recomputeSize st) limit).state,
      (deleteFilesOverLimit (recomputeSize st) limit).freed)
  else (recomputeSize st, 0)

/-- Errors raised by `CacheCleaner.#validateParams`, in source order. -/
inductive ConfigError where
  | separateDefinition
  | nonPositiveSize
  | badCronSyntax
  | percentOutOfRange
  | emptyPath
deriving DecidableEq

/-- Constructor parameters of `CacheCleaner`
(`CacheCleanerConstructorParams`).  `none` models an absent (`undefined`)
field; present numeric fields are modelled as rationals, so the
`Number.isNaN` guards of the source can never fire and are omitted. -/
structure CacheCleanerParams where
  fullnessPercent : Option ℚ
  directorySize : Option ℚ
  cronString : Option String
  directoryPath : String

/-- `CacheCleaner.#validateParams`, with the checks in source order;
`some e` is the error thrown, `none` means validation passes.  `cronValid`
stands for `Watcher.validateCronString` (node-cron's validator), which is
only consulted when `cronString` is truthy. -/
def validateParams (cronValid : String → Bool) (p : CacheCleanerParams) :
    Option ConfigError :=
  if (p.directorySize.isSome && !p.fullnessPercent.isSome)
      || (p.fullnessPercent.isSome && !p.directorySize.isSome) then
    some .separateDefinition
  else if (match p.directorySize with
           | some s => decide (s ≤ 0)
           | none => false) then
    some .nonPositiveSize
  else if (match p.cronString with
           | some c => !(c == "") && !cronValid c
           | none => false) then
    some .badCronSyntax
  else if (match p.fullnessPercent with
           | some q => decide (1 < q) || decide (q < 0)
           | none => false) then
    some .percentOutOfRange
  else if p.directoryPath == "" then some .emptyPath
  else none

/-- The cleaning modes recorded by the `CacheCleaner` constructor. -/
structure CleanerMods where
  byCron : Bool
  byFullnessPercent : Bool
deriving DecidableEq

/-- The `CacheCleaner` constructor: `#validateParams` runs first, so any
configuration error is raised synchronously (`Sum.inl`) before the watcher is
built or any cleaning process starts; on success the active modes are
recorded via the truthiness of `cronString` and `fullnessPercent`. -/
def cacheCleanerConstruct (cronValid : String → Bool)
    (p : CacheCleanerParams) : ConfigError ⊕ CleanerMods :=
  match validateParams cronValid p with
  | some e => .inl e
  | none =>
    .inr ⟨(match p.cronString with
           | some c => !(c == "")
           | none => false),
      (match p.fullnessPercent with
       | some q => decide (q ≠ 0)
       | none => false)⟩

/-- Concrete file fixtures used by witnesses and counterexamples.  `f100` and
`f200` mirror the repository's own `deleteFilesOverLimit` test data: sizes
100 and 200 bytes, creation times 100 and 200. -/
def f100 : FileItem := ⟨"f1.txt", "/cache/1", "/cache/1/f1.txt", 100, 100⟩

/-- Second capacity-eviction fixture file, 200 bytes, created later. -/
def f200 : FileItem := ⟨"f2.txt", "/cache/2", "/cache/2/f2.txt", 200, 200⟩

/-- Worker state after scanning `f100` and `f200`: total size 300 bytes. -/
def st300 : WorkerState := ⟨[f100, f200], 300⟩

/-- A file whose name encodes the already-passed expiry timestamp 100. -/
def fExpired : FileItem := ⟨"a.100.jpg", "/cache/a", "/cache/a/a.100.jpg", 50, 10⟩

/-- A file whose name encodes the far-future expiry timestamp 5000. -/
def fFresh : FileItem := ⟨"b.5000.jpg", "/cache/b", "/cache/b/b.5000.jpg", 50, 20⟩

/-- A file whose name encodes the expiry timestamp 0 (the epoch). -/
def fileZeroExpiry : FileItem := ⟨"a.0.jpg", "/cache/z", "/cache/z/a.0.jpg", 50, 0⟩

/-- A scan entry whose stat succeeded: regular file of 100 bytes. -/
def entryOk100 : ScanEntry := ⟨"f1.txt", "/cache/1", "/cache/1/f1.txt", .ok ⟨true, 100, 100⟩⟩

/-- A scan entry whose stat succeeded: regular file of 200 bytes. -/
def entryOk200 : ScanEntry := ⟨"f2.txt", "/cache/2", "/cache/2/f2.txt", .ok ⟨true, 200, 200⟩⟩

/-- A scan entry whose stat call rejected (file vanished after listing). -/
def entryBad : ScanEntry := ⟨"f3.txt", "/cache/3", "/cache/3/f3.txt", .error ()⟩

/-- An expired file in its own cache directory, for the TTL count fixtures. -/
def dExp1 : FileItem := ⟨"1.1000.jpg", "/c/1", "/c/1/1.1000.jpg", 100, 0⟩

/-- A second expired file in its own cache directory. -/
def dExp2 : FileItem := ⟨"2.1500.jpg", "/c/2", "/c/2/2.1500.jpg", 100, 0⟩

/-- Kernel-reducible burst predicate: the event times are in arrival order
and each event lands strictly inside the 500ms window armed by its
predecessor, so every event cancels the pending timer. -/
def isBurst : List Int → Bool
  | [] => true
  | [_] => true
  | a :: b :: rest =>
    decide (a ≤ b) && decide (b < a + debounceDelay) && isBurst (b :: rest)

theorem sumSizes_nil : sumSizes [] = 0 := rfl

theorem sumSizes_cons (f : FileItem) (l : List FileItem) :
    sumSizes (f :: l) = (f.size : Int) + sumSizes l := by
  simp [sumSizes]

theorem sumSizes_append (l₁ l₂ : List FileItem) :
    sumSizes (l₁ ++ l₂) = sumSizes l₁ + sumSizes l₂ := by
  simp [sumSizes]

theorem sumSizes_perm {l₁ l₂ : List FileItem} (h : l₁.Perm l₂) :
    sumSizes l₁ = sumSizes l₂ :=
  List.Perm.sum_eq (h.map _)

theorem sumSizes_nonneg (l : List FileItem) : 0 ≤ sumSizes l := by
  induction l with
  | nil => simp [sumSizes]
  | cons f rest ih =>
    rw [sumSizes_cons]
    positivity

theorem removeAll_nil (l : List FileItem) : removeAll l [] = l := by
  simp [removeAll]

theorem filter_ne_removeAll (l : List FileItem) (f : FileItem)
    (ds : List FileItem) :
    removeAll (l.filter (fun g => decide (g ≠ f))) ds = removeAll l (f :: ds) := by
  simp only [removeAll, List.filter_filter]
  apply List.filter_congr
  intro g _
  by_cases h1 : g = f <;> by_cases h2 : g ∈ ds <;>
    simp [h1, h2, List.mem_cons]

theorem ttlLoop_eq (now : Int) (files : List FileItem) :
    ∀ (rem : List FileItem) (sch : List String),
      ttlLoop now files rem sch =
        (removeAll rem (files.filter (isOutdated now)),
          sch ++ (files.filter (isOutdated now)).map (fun f => f.parentPath)) := by
  induction files with
  | nil => intro rem sch; simp [ttlLoop, removeAll_nil]
  | cons f rest ih =>
    intro rem sch
    by_cases h : isOutdated now f
    · rw [ttlLoop, if_pos h, ih, filter_ne_removeAll]
      simp [h]
    · rw [ttlLoop, if_neg h, ih]
      simp [h]

theorem stopCount_le_length (exs : Int) (files : List FileItem) :
    ∀ acc : Int, stopCount exs files acc ≤ files.length := by
  induction files with
  | nil => intro acc; simp [stopCount]
  | cons f rest ih =>
    intro acc
    rw [stopCount]
    by_cases h : exs ≤ acc + (f.size : Int)
    · simp [h]
    · simp only [if_neg h, List.length_cons]
      have := ih (acc + (f.size : Int))
      omega

theorem stopCount_reached (exs : Int) (files : List FileItem) :
    ∀ acc : Int,
      stopCount exs files acc = files.length ∨
        exs ≤ acc + sumSizes (files.take (stopCount exs files acc)) := by
  induction files with
  | nil => intro acc; left; simp [stopCount]
  | cons f rest ih =>
    intro acc
    rw [stopCount]
    by_cases h : exs ≤ acc + (f.size : Int)
    · right
      simp only [if_pos h, List.take_succ_cons, List.take_zero]
      rw [sumSizes_cons, sumSizes_nil]
      omega
    · rcases ih (acc + (f.size : Int)) with h1 | h1
      · left; simp [if_neg h, h1, Nat.add_comm]
      · right
        simp only [if_neg h, Nat.add_comm 1, List.take_succ_cons, sumSizes_cons]
        omega

theorem stopCount_min (exs : Int) (files : List FileItem) :
    ∀ (acc : Int) (j : Nat), 0 < j → j < stopCount exs files acc →
      acc + sumSizes (files.take j) < exs := by
  induction files with
  | nil => intro acc j _ hj; simp [stopCount] at hj
  | cons f rest ih =>
    intro acc j hj0 hj
    rw [stopCount] at hj
    by_cases h : exs ≤ acc + (f.size : Int)
    · rw [if_pos h] at hj; omega
    · rw [if_neg h] at hj
      match j with
      | 1 =>
        simp only [List.take_succ_cons, List.take_zero]
        rw [sumSizes_cons, sumSizes_nil]
        omega
      | j' + 1 =>
        by_cases hj' : 0 < j'
        · have := ih (acc + (f.size : Int)) j' hj' (by omega)
          simp only [List.take_succ_cons, sumSizes_cons]
          omega
        · have : j' = 0 := by omega
          subst this
          simp only [List.take_succ_cons, List.take_zero]
          rw [sumSizes_cons, sumSizes_nil]
          omega

theorem deleteLoop_eq (exs : Int) (files : List FileItem) :
    ∀ (acc : Int) (sch : List String) (rem : List FileItem),
      deleteLoop exs files acc sch rem =
        (acc + sumSizes (files.take (stopCount exs files acc)),
          sch ++ (files.take (stopCount exs files acc)).map
            (fun f => f.parentPath),
          removeAll rem (files.take (stopCount exs files acc))) := by
  induction files with
  | nil =>
    intro acc sch rem
    simp [deleteLoop, stopCount, sumSizes_nil, removeAll_nil]
  | cons f rest ih =>
    intro acc sch rem
    rw [deleteLoop, stopCount]
    by_cases h : exs ≤ acc + (f.size : Int)
    · simp only [if_pos h, List.take_succ_cons, List.take_zero]
      rw [sumSizes_cons, sumSizes_nil]
      refine Prod.ext ?_ (Prod.ext ?_ ?_)
      · simp
      · simp
      · simp [removeAll, List.mem_singleton]
    · simp only [if_neg h, Nat.add_comm 1, List.take_succ_cons]
      rw [ih, filter_ne_removeAll]
      rw [sumSizes_cons]
      refine Prod.ext ?_ (Prod.ext ?_ ?_)
      · simp
        omega
      · simp
      · simp

theorem sortByBirthtime_perm (files : List FileItem) :
    (sortByBirthtime files).Perm files :=
  List.perm_insertionSort birthLE files

theorem sortByBirthtime_sorted (files : List FileItem) :
    (sortByBirthtime files).Pairwise (fun a b => a.birthtimeMs ≤ b.birthtimeMs) :=
  List.sorted_insertionSort birthLE files

/-- C1: `deleteFilesOverLimit(L)` on total size `T` and file list `F`:
if `T - L ≤ 0` it deletes nothing and returns 0; otherwise it sorts `F` by
creation timestamp ascending, schedules the parent-directory deletion of each
file of the greedy prefix in order, stops as soon as the accumulated sizes
reach the excess (or the list is exhausted), never takes more files than any
sufficient prefix, and returns the accumulated byte total. -/
theorem claim1_capacity_eviction (st : WorkerState) (limit : Int) :
    (st.totalSize - limit ≤ 0 →
      deleteFilesOverLimit st limit = ⟨0, [], st⟩) ∧
    (0 < st.totalSize - limit →
      (sortByBirthtime st.files).Perm st.files ∧
      (sortByBirthtime st.files).Pairwise
        (fun a b => a.birthtimeMs ≤ b.birthtimeMs) ∧
      (deleteFilesOverLimit st limit).scheduled =
        ((sortByBirthtime st.files).take
          (stopCount (st.totalSize - limit) (sortByBirthtime st.files) 0)).map
            (fun f => f.parentPath) ∧
      (deleteFilesOverLimit st limit).freed =
        sumSizes ((sortByBirthtime st.files).take
          (stopCount (st.totalSize - limit) (sortByBirthtime st.files) 0)) ∧
      (stopCount (st.totalSize - limit) (sortByBirthtime st.files) 0 =
          (sortByBirthtime st.files).length ∨
        st.totalSize - limit ≤ (deleteFilesOverLimit st limit).freed) ∧
      ∀ j : Nat,
        st.totalSize - limit ≤ sumSizes ((sortByBirthtime st.files).take j) →
        stopCount (st.totalSize - limit) (sortByBirthtime st.files) 0 ≤ j) := by
  constructor
  · intro h
    rw [deleteFilesOverLimit, if_pos h]
  · intro h
    have hne : ¬st.totalSize - limit ≤ 0 := by omega
    have hd : deleteFilesOverLimit st limit =
        ⟨0 + sumSizes ((sortByBirthtime st.files).take
            (stopCount (st.totalSize - limit) (sortByBirthtime st.files) 0)),
          [] ++ ((sortByBirthtime st.files).take
            (stopCount (st.totalSize - limit) (sortByBirthtime st.files) 0)).map
              (fun f => f.parentPath),
          ⟨removeAll st.files ((sortByBirthtime st.files).take
            (stopCount (st.totalSize - limit) (sortByBirthtime st.files) 0)),
            st.totalSize⟩⟩ := by
      rw [deleteFilesOverLimit, if_neg hne, deleteLoop_eq]
    refine ⟨sortByBirthtime_perm st.files, sortByBirthtime_sorted st.files,
      ?_, ?_, ?_, ?_⟩
    · rw [hd]; simp
    · rw [hd]; simp
    · rcases stopCount_reached (st.totalSize - limit)
          (sortByBirthtime st.files) 0 with h1 | h1
      · exact Or.inl h1
      · right
        rw [hd]
        simpa using h1
    · intro j hj
      by_contra hlt
      push_neg at hlt
      rcases Nat.eq_zero_or_pos j with h0 | h0
      · subst h0
        rw [List.take_zero, sumSizes_nil] at hj
        omega
      · have := stopCount_min (st.totalSize - limit)
          (sortByBirthtime st.files) 0 j h0 hlt
        omega

/-- C1 witness: on the repository's own test data (files of 100 and 200
bytes, total 300) with limit 150 the pass frees 300 bytes; with limit 400
there is no excess and the pass is the identity returning 0. -/
theorem claim1_witness :
    (0 < st300.totalSize - 150 ∧
      (deleteFilesOverLimit st300 150).freed =
        sumSizes ((sortByBirthtime st300.files).take
          (stopCount (st300.totalSize - 150) (sortByBirthtime st300.files) 0)) ∧
      (deleteFilesOverLimit st300 150).freed = 300) ∧
    (st300.totalSize - 400 ≤ 0 ∧
      deleteFilesOverLimit st300 400 = ⟨0, [], st300⟩) :=
  ⟨⟨by decide,
      ((claim1_capacity_eviction st300 150).2 (by decide)).2.2.2.1,
      by decide⟩,
    ⟨by decide, (claim1_capacity_eviction st300 400).1 (by decide)⟩⟩

/-- C6: running the capacity eviction twice in a row — with the size
recomputation that precedes each run in the change-driven trigger, and no new
files in between — makes the second run a no-op freeing 0 bytes, because the
first run brought the total to or below the limit.  Hypotheses: the recorded
total matches the snapshot, the snapshot has no duplicate records, and the
limit is nonnegative. -/
theorem claim6_idempotent (st : WorkerState) (limit : Int)
    (hsz : st.totalSize = sumSizes st.files)
    (hnd : st.files.Nodup) (hL : 0 ≤ limit) :
    (deleteFilesOverLimit (recomputeSize
        (deleteFilesOverLimit st limit).state) limit).freed = 0 ∧
    (deleteFilesOverLimit (recomputeSize
        (deleteFilesOverLimit st limit).state) limit).scheduled = [] := by
  have key : sumSizes (deleteFilesOverLimit st limit).state.files ≤ limit := by
    by_cases h0 : st.totalSize - limit ≤ 0
    · rw [deleteFilesOverLimit, if_pos h0]
      show sumSizes st.files ≤ limit
      omega
    · have hd := deleteLoop_eq (st.totalSize - limit)
        (sortByBirthtime st.files) 0 [] st.files
      rw [deleteFilesOverLimit, if_neg h0, hd]
      have hperm : (sortByBirthtime st.files).Perm st.files :=
        sortByBirthtime_perm st.files
      have hnds : (sortByBirthtime st.files).Nodup :=
        (hperm.nodup_iff).mpr hnd
      have hsplit : (sortByBirthtime st.files).take
            (stopCount (st.totalSize - limit) (sortByBirthtime st.files) 0) ++
          (sortByBirthtime st.files).drop
            (stopCount (st.totalSize - limit) (sortByBirthtime st.files) 0) =
          sortByBirthtime st.files :=
        List.take_append_drop _ _
      have hPD : ((sortByBirthtime st.files).take
            (stopCount (st.totalSize - limit) (sortByBirthtime st.files) 0) ++
          (sortByBirthtime st.files).drop
            (stopCount (st.totalSize - limit) (sortByBirthtime st.files) 0)).Nodup := by
        rw [hsplit]; exact hnds
      have hdisj := (List.nodup_append.mp hPD).2.2
      have hfperm : (removeAll st.files ((sortByBirthtime st.files).take
            (stopCount (st.totalSize - limit) (sortByBirthtime st.files) 0))).Perm
          ((sortByBirthtime st.files).drop
            (stopCount (st.totalSize - limit) (sortByBirthtime st.files) 0)) := by
        have h1 : st.files.Perm
            ((sortByBirthtime st.files).take
              (stopCount (st.totalSize - limit) (sortByBirthtime st.files) 0) ++
            (sortByBirthtime st.files).drop
              (stopCount (st.totalSize - limit) (sortByBirthtime st.files) 0)) := by
          rw [hsplit]; exact hperm.symm
        have h2 := h1.filter (fun g => decide (g ∉
          (sortByBirthtime st.files).take
            (stopCount (st.totalSize - limit) (sortByBirthtime st.files) 0)))
        rw [List.filter_append] at h2
        have hfP : ((sortByBirthtime st.files).take
            (stopCount (st.totalSize - limit) (sortByBirthtime st.files) 0)).filter
              (fun g => decide (g ∉
                (sortByBirthtime st.files).take
                  (stopCount (st.totalSize - limit) (sortByBirthtime st.files) 0))) = [] := by
          apply List.filter_eq_nil_iff.mpr
          intro a ha
          simp [ha]
        have hfD : ((sortByBirthtime st.files).drop
            (stopCount (st.totalSize - limit) (sortByBirthtime st.files) 0)).filter
              (fun g => decide (g ∉
                (sortByBirthtime st.files).take
                  (stopCount (st.totalSize - limit) (sortByBirthtime st.files) 0))) =
            (sortByBirthtime st.files).drop
              (stopCount (st.totalSize - limit) (sortByBirthtime st.files) 0) := by
          apply List.filter_eq_self.mpr
          intro a ha
          simpa using fun hPa => hdisj hPa ha
        rw [hfP, hfD, List.nil_append] at h2
        exact h2
      have hsum : sumSizes ((sortByBirthtime st.files).take
            (stopCount (st.totalSize - limit) (sortByBirthtime st.files) 0)) +
          sumSizes ((sortByBirthtime st.files).drop
            (stopCount (st.totalSize - limit) (sortByBirthtime st.files) 0)) =
          sumSizes st.files := by
        rw [← sumSizes_append, hsplit]
        exact sumSizes_perm hperm
      have hrw := sumSizes_perm hfperm
      show sumSizes (removeAll st.files ((sortByBirthtime st.files).take
        (stopCount (st.totalSize - limit) (sortByBirthtime st.files) 0))) ≤ limit
      rw [hrw]
      rcases stopCount_reached (st.totalSize - limit)
          (sortByBirthtime st.files) 0 with hk | hk
      · rw [hk, List.drop_length, sumSizes_nil]
        exact hL
      · rw [zero_add] at hk
        omega
  have hc : (recomputeSize (deleteFilesOverLimit st limit).state).totalSize -
      limit ≤ 0 := by
    show sumSizes (deleteFilesOverLimit st limit).state.files - limit ≤ 0
    omega
  rw [deleteFilesOverLimit, if_pos hc]
  exact ⟨rfl, rfl⟩

/-- C6 witness: on the 100/200-byte fixture with limit 150 the immediate
second capacity run frees 0 bytes and schedules no deletion. -/
theorem claim6_witness :
    st300.totalSize = sumSizes st300.files ∧ st300.files.Nodup ∧
    (0 : Int) ≤ 150 ∧
    (deleteFilesOverLimit (recomputeSize
        (deleteFilesOverLimit st300 150).state) 150).freed = 0 :=
  ⟨by decide, by decide, by decide,
    (claim6_idempotent st300 150 (by decide) (by decide) (by decide)).1⟩

/-- C10: `getDirectorySize` leaves `#files` untouched, the capacity eviction
only ever schedules parent directories of files in the current `#files`
snapshot, and with an empty snapshot it deletes nothing and frees 0 bytes no
matter how large the recorded total size is. -/
theorem claim10_frame (st : WorkerState) (entries : List ScanEntry)
    (limit : Int) :
    (getDirectorySizeState st entries).1.files = st.files ∧
    (∀ p ∈ (deleteFilesOverLimit st limit).scheduled,
      ∃ f ∈ st.files, p = f.parentPath) ∧
    (st.files = [] →
      (deleteFilesOverLimit st limit).freed = 0 ∧
      (deleteFilesOverLimit st limit).scheduled = []) := by
  refine ⟨rfl, ?_, ?_⟩
  · intro p hp
    by_cases h0 : st.totalSize - limit ≤ 0
    · rw [deleteFilesOverLimit, if_pos h0] at hp
      simp at hp
    · rw [deleteFilesOverLimit, if_neg h0, deleteLoop_eq] at hp
      simp only [List.nil_append, List.mem_map] at hp
      obtain ⟨f, hf, hfp⟩ := hp
      exact ⟨f, (sortByBirthtime_perm st.files).mem_iff.mp
        (List.mem_of_mem_take hf), hfp.symm⟩
  · intro h
    by_cases h0 : st.totalSize - limit ≤ 0
    · rw [deleteFilesOverLimit, if_pos h0]
      exact ⟨rfl, rfl⟩
    · rw [deleteFilesOverLimit, if_neg h0, deleteLoop_eq]
      simp [h, sortByBirthtime, stopCount, sumSizes_nil]

/-- C10 witness: with `#files` never populated but a recorded total of 500
bytes, `deleteFilesOverLimit 100` frees 0 bytes and schedules nothing. -/
theorem claim10_witness :
    (⟨[], 500⟩ : WorkerState).files = [] ∧
    (deleteFilesOverLimit ⟨[], 500⟩ 100).freed = 0 ∧
    (deleteFilesOverLimit ⟨[], 500⟩ 100).scheduled = [] :=
  ⟨rfl, (claim10_frame ⟨[], 500⟩ [] 100).2.2 rfl⟩

/-- C2 (amended): a file is scheduled for parent-directory deletion, exactly
once, precisely when the second dot-delimited segment of its name parses via
`parseInt` to a nonzero integer strictly below the current time; files whose
parsed expiry is at or after `now`, files with an unparsable second segment,
and — the amendment — files whose parsed expiry is exactly `0` (falsy under
the `expireAt &&` guard) are never deleted. -/
theorem claim2_ttl_rule (files : List FileItem) (now : Int) (rmOk : Nat → Bool)
    (r : TtlResult)
    (h : deleteOutdatedFiles (Except.ok files) now rmOk = some r) :
    r.scheduled =
      (files.filter (isOutdated now)).map (fun f => f.parentPath) ∧
    r.files = removeAll files (files.filter (isOutdated now)) ∧
    ∀ f : FileItem,
      isOutdated now f = true ↔
        ∃ e : Int, parseFile f.name = some e ∧ e ≠ 0 ∧ e < now := by
  rw [deleteOutdatedFiles, ttlLoop_eq, List.nil_append] at h
  have h2 := (Option.some.injEq _ _).mp h
  refine ⟨?_, ?_, ?_⟩
  · rw [← h2]
  · rw [← h2]
  · intro f
    rw [isOutdated]
    cases hp : parseFile f.name with
    | none => simp [hp]
    | some e => simp [hp]

/-- C2 counterexample: `a.0.jpg` has a second segment that parses to the
valid integer `0`, which is strictly below `now = 100`, yet the TTL pass
deletes nothing: the returned result has an empty schedule, count 0, and the
file still in the list. -/
theorem claim2_counterexample :
    parseFile fileZeroExpiry.name = some 0 ∧ (0 : Int) < 100 ∧
    deleteOutdatedFiles (Except.ok [fileZeroExpiry]) 100 (fun _ => true) =
      some ⟨0, [], [fileZeroExpiry]⟩ :=
  ⟨by decide, by decide, by decide⟩

/-- C2 witness: the spec's end-to-end fixture — `a.100.jpg` expired and
`b.5000.jpg` fresh at `now = 200` — schedules exactly the expired file's
parent directory. -/
theorem claim2_witness :
    deleteOutdatedFiles (Except.ok [fExpired, fFresh]) 200 (fun _ => true) =
      some ⟨1, ["/cache/a"], [fFresh]⟩ ∧
    (⟨1, ["/cache/a"], [fFresh]⟩ : TtlResult).scheduled =
      (([fExpired, fFresh] : List FileItem).filter (isOutdated 200)).map
        (fun f => f.parentPath) ∧
    (isOutdated 200 fExpired = true ↔
      ∃ e : Int, parseFile fExpired.name = some e ∧ e ≠ 0 ∧ e < 200) :=
  ⟨by decide,
    (claim2_ttl_rule [fExpired, fFresh] 200 (fun _ => true)
      ⟨1, ["/cache/a"], [fFresh]⟩ (by decide)).1,
    (claim2_ttl_rule [fExpired, fFresh] 200 (fun _ => true)
      ⟨1, ["/cache/a"], [fFresh]⟩ (by decide)).2.2 fExpired⟩

/-- C5 (amended): the count returned by a completed TTL pass is the number of
scheduled deletions whose promise fulfilled — not the number scheduled — so
it never exceeds the schedule length and matches it exactly when every
deletion succeeds. -/
theorem claim5_count_rule (files : List FileItem) (now : Int)
    (rmOk : Nat → Bool) (r : TtlResult)
    (h : deleteOutdatedFiles (Except.ok files) now rmOk = some r) :
    r.deletedCount = ((List.range r.scheduled.length).filter rmOk).length ∧
    r.deletedCount ≤ r.scheduled.length ∧
    ((∀ i, i < r.scheduled.length → rmOk i = true) →
      r.deletedCount = r.scheduled.length) := by
  rw [deleteOutdatedFiles, ttlLoop_eq, List.nil_append] at h
  obtain ⟨cnt, sch, rem⟩ := r
  have h2 := (Option.some.injEq _ _).mp h
  rw [TtlResult.mk.injEq] at h2
  obtain ⟨hc, hs, hr⟩ := h2
  subst hc
  subst hs
  refine ⟨rfl, ?_, ?_⟩
  · exact le_trans (List.length_filter_le _ _)
      (le_of_eq (List.length_range _))
  · intro hall
    have hfull : (List.range ((files.filter (isOutdated now)).map
        (fun f => f.parentPath)).length).filter rmOk =
        List.range ((files.filter (isOutdated now)).map
          (fun f => f.parentPath)).length := by
      apply List.filter_eq_self.mpr
      intro i hi
      exact hall i (List.mem_range.mp hi)
    show ((List.range ((files.filter (isOutdated now)).map
        (fun f => f.parentPath)).length).filter rmOk).length = _
    rw [hfull, List.length_range]

/-- C5 counterexample: two expired files are scheduled (two parent
directories in the schedule), the second deletion rejects, and the pass
returns 1 — the fulfilled count — not the scheduled count 2. -/
theorem claim5_counterexample :
    deleteOutdatedFiles (Except.ok [dExp1, dExp2]) 2000 (fun i => i == 0) =
      some ⟨1, ["/c/1", "/c/2"], []⟩ ∧ (1 : Nat) ≠ 2 :=
  ⟨by decide, by decide⟩

/-- C5 witness: on the two-expired-files fixture with the second deletion
rejecting, the returned count equals the fulfilled count and stays below the
schedule length. -/
theorem claim5_witness :
    (⟨1, ["/c/1", "/c/2"], []⟩ : TtlResult).deletedCount =
      ((List.range (⟨1, ["/c/1", "/c/2"], []⟩ : TtlResult).scheduled.length).filter
        (fun i => i == 0)).length ∧
    (⟨1, ["/c/1", "/c/2"], []⟩ : TtlResult).deletedCount ≤
      (⟨1, ["/c/1", "/c/2"], []⟩ : TtlResult).scheduled.length :=
  ⟨(claim5_count_rule [dExp1, dExp2] 2000 (fun i => i == 0)
      ⟨1, ["/c/1", "/c/2"], []⟩ (by decide)).1,
    (claim5_count_rule [dExp1, dExp2] 2000 (fun i => i == 0)
      ⟨1, ["/c/1", "/c/2"], []⟩ (by decide)).2.1⟩

/-- C9: when the initial listing step rejects, `deleteOutdatedFiles` returns
the distinguished non-count value `null` (`none`) instead of throwing or
returning a count; when the listing succeeds the pass always completes with a
count, and which deletions are scheduled — and which files survive — does not
depend on the deletion outcomes, so one failed deletion never aborts its
siblings. -/
theorem claim9_listing_failure (now : Int) (rmOk : Nat → Bool) :
    deleteOutdatedFiles (Except.error ()) now rmOk = none ∧
    ∀ files : List FileItem, ∃ r : TtlResult,
      deleteOutdatedFiles (Except.ok files) now rmOk = some r ∧
      ∀ rmOkAlt : Nat → Bool, ∃ rAlt : TtlResult,
        deleteOutdatedFiles (Except.ok files) now rmOkAlt = some rAlt ∧
        rAlt.scheduled = r.scheduled ∧ rAlt.files = r.files := by
  refine ⟨rfl, ?_⟩
  intro files
  refine ⟨⟨((List.range ((files.filter (isOutdated now)).map
      (fun f => f.parentPath)).length).filter rmOk).length,
      (files.filter (isOutdated now)).map (fun f => f.parentPath),
      removeAll files (files.filter (isOutdated now))⟩, ?_, ?_⟩
  · rw [deleteOutdatedFiles, ttlLoop_eq, List.nil_append]
  · intro rmOkAlt
    refine ⟨⟨((List.range ((files.filter (isOutdated now)).map
        (fun f => f.parentPath)).length).filter rmOkAlt).length,
        (files.filter (isOutdated now)).map (fun f => f.parentPath),
        removeAll files (files.filter (isOutdated now))⟩, ?_, rfl, rfl⟩
    rw [deleteOutdatedFiles, ttlLoop_eq, List.nil_append]

theorem okFileSizes_eq_sum (entries : List ScanEntry) :
    okFileSizes entries = (entries.map entryContribution).sum := by
  suffices h : ∀ (es : List ScanEntry) (a : Int),
      es.foldl (fun acc e =>
        match e.statResult with
        | .ok s => if s.isFile then acc + (s.size : Int) else acc
        | .error _ => acc) a = a + (es.map entryContribution).sum by
    simpa using h entries 0
  intro es
  induction es with
  | nil => intro a; simp
  | cons e rest ih =>
    intro a
    rw [List.foldl_cons, List.map_cons, List.sum_cons, ih]
    cases hE : e.statResult with
    | ok stats =>
      by_cases hf : stats.isFile
      · simp [entryContribution, hE, hf]
        omega
      · simp [entryContribution, hE, hf]
    | error u => simp [entryContribution, hE]

theorem updateAllFiles_length (entries : List ScanEntry)
    (hok : ∀ e ∈ entries, statFailed e = false) :
    (entries.filterMap (fun e =>
      match e.statResult with
      | .ok s => some (mkFileItem e s)
      | .error _ => none)).length = entries.length := by
  induction entries with
  | nil => simp
  | cons e rest ih =>
    have he := hok e (List.mem_cons_self e rest)
    cases hE : e.statResult with
    | ok stats =>
      rw [List.filterMap_cons]
      simp only [hE]
      rw [List.length_cons, ih (fun x hx => hok x (List.mem_cons_of_mem e hx))]
      simp
    | error u =>
      rw [statFailed, hE] at he
      simp at he

/-- C4 (amended): an individual failed `fs.stat` is not tolerated — because
the per-entry tasks are joined with `Promise.all`, one rejected stat rejects
the whole `updateAllFiles`/`getDirectorySize` pass instead of being skipped;
only when every stat succeeds does the size pass return the aggregate, in
which case each entry contributes its size when it is a regular file at stat
time and `0` otherwise, and the scan pass records one item per entry. -/
theorem claim4_stat_failure (entries : List ScanEntry) :
    ((∃ e ∈ entries, statFailed e = true) →
      getDirectorySize entries = Except.error () ∧
      updateAllFiles entries = Except.error ()) ∧
    ((∀ e ∈ entries, statFailed e = false) →
      getDirectorySize entries =
        Except.ok ((entries.map entryContribution).sum) ∧
      ∃ l : List FileItem, updateAllFiles entries = Except.ok l ∧
        l.length = entries.length) := by
  constructor
  · intro hex
    have hany : entries.any statFailed = true := List.any_eq_true.mpr
      (by simpa using hex)
    rw [getDirectorySize, if_pos hany, updateAllFiles, if_pos hany]
    exact ⟨rfl, rfl⟩
  · intro hok
    have hany : entries.any statFailed = false := by
      rw [Bool.eq_false_iff]
      intro hc
      obtain ⟨e, he, hfe⟩ := List.any_eq_true.mp hc
      rw [hok e he] at hfe
      exact Bool.false_ne_true hfe
    rw [getDirectorySize, if_neg (by simp [hany]), updateAllFiles,
      if_neg (by simp [hany]), okFileSizes_eq_sum]
    exact ⟨rfl, _, rfl, updateAllFiles_length entries hok⟩

/-- C4 counterexample: a size pass over one good 100-byte file and one entry
whose stat rejected does not skip the bad entry and return the aggregate 100 —
it aborts: the whole pass rejects. -/
theorem claim4_counterexample :
    getDirectorySize [entryOk100, entryBad] = Except.error () ∧
    getDirectorySize [entryOk100, entryBad] ≠ Except.ok 100 := by
  refine ⟨rfl, ?_⟩
  intro hcontra
  rw [show getDirectorySize [entryOk100, entryBad] = Except.error () from rfl]
    at hcontra
  exact Except.noConfusion hcontra

/-- C4 witness: both branches at concrete scans — a failing entry rejects the
pass, and an all-good scan returns the 300-byte aggregate. -/
theorem claim4_witness :
    (∃ e ∈ ([entryOk100, entryBad] : List ScanEntry), statFailed e = true) ∧
    getDirectorySize [entryOk100, entryBad] = Except.error () ∧
    (∀ e ∈ ([entryOk100, entryOk200] : List ScanEntry),
      statFailed e = false) ∧
    getDirectorySize [entryOk100, entryOk200] =
      Except.ok ((([entryOk100, entryOk200] : List ScanEntry).map
        entryContribution).sum) :=
  ⟨by decide,
    ((claim4_stat_failure [entryOk100, entryBad]).1 (by decide)).1,
    by decide,
    ((claim4_stat_failure [entryOk100, entryOk200]).2 (by decide)).1⟩

theorem debounceFireTimes_burst (rest : List Int) :
    ∀ prev : Int, isBurst (prev :: rest) = true →
      debounceFireTimes rest (some (prev + debounceDelay)) =
        [(prev :: rest).getLast (List.cons_ne_nil prev rest) + debounceDelay] := by
  induction rest with
  | nil => intro prev _; rfl
  | cons t rest2 ih =>
    intro prev hb
    rw [isBurst] at hb
    simp only [Bool.and_eq_true, decide_eq_true_eq] at hb
    have ht : t < prev + debounceDelay := hb.1.2
    have hb2 : isBurst (t :: rest2) = true := hb.2
    rw [debounceFireTimes, if_neg (by omega), ih t hb2]
    have hlast : (prev :: t :: rest2).getLast
        (List.cons_ne_nil prev (t :: rest2)) =
        (t :: rest2).getLast (List.cons_ne_nil t rest2) :=
      List.getLast_cons (List.cons_ne_nil t rest2)
    rw [hlast]

/-- C3: when `N ≥ 1` creation events all arrive inside one rolling 500ms
debounce window (each event lands strictly before the deadline armed by its
predecessor), the timer callback — the single capacity evaluation, a size
recomputation followed by a possible capacity-eviction run — fires exactly
once, 500ms after the last event of the burst.  Modelled from the
`#cleanupTimer` revision of `Watcher.#onAddFile`. -/
theorem claim3_debounce (events : List Int) (hne : events ≠ [])
    (hb : isBurst events = true) :
    debounceFireTimes events none =
      [events.getLast hne + debounceDelay] ∧
    (debounceFireTimes events none).length = 1 := by
  match events, hne with
  | t :: rest, _ =>
    have h0 : debounceFireTimes (t :: rest) none =
        debounceFireTimes rest (some (t + debounceDelay)) := rfl
    rw [h0, debounceFireTimes_burst rest t hb]
    exact ⟨rfl, rfl⟩

/-- C3 witness: three creation events at 0ms, 100ms and 400ms — each within
500ms of its predecessor — produce exactly one firing, at 900ms. -/
theorem claim3_witness :
    ([0, 100, 400] : List Int) ≠ [] ∧ isBurst [0, 100, 400] = true ∧
    debounceFireTimes [0, 100, 400] none = [900] := by
  refine ⟨by decide, by decide, ?_⟩
  have h := (claim3_debounce [0, 100, 400] (by decide) (by decide)).1
  rw [h]
  decide

/-- C7 (code bug): the spec requires fullness fractions outside the open
interval (0,1) — the boundary values 0 and 1 included — to be rejected at
construction, and the code's own error message demands "a fractional value in
the range (0, 1)", but the implemented check `fullnessPercent > 1 ||
fullnessPercent < 0` accepts both boundaries: construction succeeds with
fullness 1, and with fullness 0 it even silently disables the fullness mode
(`!!0` is falsy). -/
theorem claim7_boundary_accepted :
    validateParams (fun _ => false) ⟨some 1, some 1024, none, "/cache"⟩ =
      none ∧
    validateParams (fun _ => false) ⟨some 0, some 1024, none, "/cache"⟩ =
      none ∧
    cacheCleanerConstruct (fun _ => false)
      ⟨some 1, some 1024, none, "/cache"⟩ = Sum.inr ⟨false, true⟩ ∧
    cacheCleanerConstruct (fun _ => false)
      ⟨some 0, some 1024, none, "/cache"⟩ = Sum.inr ⟨false, false⟩ :=
  ⟨by decide, by decide, by decide, by decide⟩

/-- C8: each invalid configuration of the spec's validation table is rejected
synchronously at construction: `directorySize` without `fullnessPercent` (and
vice versa, e.g. a lone 1.2), `fullnessPercent = 1.2` with a size,
`directorySize = 0`, and an empty `directoryPath` all make `#validateParams`
throw, so `cacheCleanerConstruct` fails before any watcher starts. -/
theorem claim8_invalid_configs :
    validateParams (fun _ => true)
      ⟨none, some 1024, some "*/5 * * * *", "/valid/path"⟩ =
      some ConfigError.separateDefinition ∧
    validateParams (fun _ => true) ⟨some (1.2 : ℚ), none, none, "/valid/path"⟩ =
      some ConfigError.separateDefinition ∧
    validateParams (fun _ => true)
      ⟨some (1.2 : ℚ), some 1024, none, "/valid/path"⟩ =
      some ConfigError.percentOutOfRange ∧
    validateParams (fun _ => true)
      ⟨some (0.5 : ℚ), some 0, none, "/valid/path"⟩ =
      some ConfigError.nonPositiveSize ∧
    validateParams (fun _ => true) ⟨some (0.5 : ℚ), some 1024, none, ""⟩ =
      some ConfigError.emptyPath ∧
    cacheCleanerConstruct (fun _ => true)
      ⟨none, some 1024, some "*/5 * * * *", "/valid/path"⟩ =
      Sum.inl ConfigError.separateDefinition ∧
    cacheCleanerConstruct (fun _ => true)
      ⟨some (1.2 : ℚ), some 1024, none, "/valid/path"⟩ =
      Sum.inl ConfigError.percentOutOfRange ∧
    cacheCleanerConstruct (fun _ => true)
      ⟨some (0.5 : ℚ), some 0, none, "/valid/path"⟩ =
      Sum.inl ConfigError.nonPositiveSize ∧
    cacheCleanerConstruct (fun _ => true)
      ⟨some (0.5 : ℚ), some 1024, none, ""⟩ =
      Sum.inl ConfigError.emptyPath := by
  have h12 : validateParams (fun _ => true)
      ⟨some (1.2 : ℚ), some 1024, none, "/valid/path"⟩ =
      some ConfigError.percentOutOfRange := by
    norm_num [validateParams]
  have hep : validateParams (fun _ => true)
      ⟨some (0.5 : ℚ), some 1024, none, ""⟩ =
      some ConfigError.emptyPath := by
    norm_num [validateParams]
  refine ⟨by decide, by decide, h12, by decide, hep, by decide, ?_, by decide,
    ?_⟩
  · rw [cacheCleanerConstruct, h12]
  · rw [cacheCleanerConstruct, hep]

end NICC
